import Mathlib

/-!
Verification of the reconciliation engine of `Bakong@Wing.py` (a KHQR
Telegram payment bot) against its natural-language specification.

The Python program keeps a global dict `active_transactions` mapping a bill
number to a transaction record, guarded by `transaction_lock`.  Three code
paths operate on it:

* `generate_khqr_payment` (the `/pay` handler) inserts a record whose
  `expiry_time` is `now + EXPIRATION_SECONDS` (src lines 194-196, 262-269);
* `check_and_cleanup_transactions` (the background thread) snapshots the
  dict, handles expiry, calls `check_payment_status` for live records and
  removes resolved ones (src lines 108-161);
* `handle_confirm_payment` (the inline-button callback) re-checks one
  transaction on demand (src lines 280-339).

We embed the store as an association list, the external Status Oracle
(`khqr_client.check_payment`) as a function returning `Except Unit String`
(a status string or a raised error), and the Telegram transport as a
`Notifier` record of success/failure outcomes for each kind of call.  Every
externally visible action is recorded in an event log.  Uncaught Python
exceptions are modelled with `Except`: a `.error` result is a raised
exception escaping the embedded function, carrying the store and the events
that happened before the raise.
-/

namespace BakongWing

/-- One value of the `active_transactions` dict (src line 41):
`md5_hash`, `expiry_time`, `chat_id`, `message_id`.  Timestamps are
naturals (seconds). -/
structure TxData where
  md5_hash : String
  expiry_time : Nat
  chat_id : Nat
  message_id : Option Nat
deriving DecidableEq, Repr

/-- The `active_transactions` dict, embedded as an association list from
bill number to record.  A Python dict has no duplicate keys; theorems that
need that fact assume `(st.map Prod.fst).Nodup`. -/
abbrev Store := List (String × TxData)

/-- Dict lookup (`active_transactions.get` / indexing). -/
def lookupTx : Store → String → Option TxData
  | [], _ => none
  | (k, v) :: rest, b => if k = b then some v else lookupTx rest b

/-- Dict membership test (`bill_number in active_transactions`). -/
def memTx (st : Store) (b : String) : Bool :=
  (lookupTx st b).isSome

/-- Dict deletion (`del active_transactions[bill_number]`): removes the
binding for the key.  A dict holds at most one binding per key; removing
every binding of the key coincides with `del` on such stores. -/
def eraseTx : Store → String → Store
  | [], _ => []
  | (k, v) :: rest, b => if k = b then eraseTx rest b else (k, v) :: eraseTx rest b

/-- Dict assignment (`active_transactions[bill_number] = record`, src line
264): replaces the value in place if the key is present, appends otherwise.
There is no duplicate-id check in the source. -/
def setItem : Store → String → TxData → Store
  | [], b, v => [(b, v)]
  | (k, w) :: rest, b, v =>
    if k = b then (k, v) :: rest else (k, w) :: setItem rest b v

/-- The Status Oracle, `khqr_client.check_payment(md5_hash)` (src line 64):
returns a status string, or raises (modelled as `.error ()`). -/
abbrev Oracle := String → Except Unit String

/-- Outcomes of the Telegram transport calls: for each kind of call,
whether it succeeds (`true`) or raises (`false`), per destination chat. -/
structure Notifier where
  deleteOk : Nat → Bool
  sendOk : Nat → Bool
  editOk : Nat → Bool
  answerOk : Bool

/-- Externally visible actions, in program order.  Send events carrying a
bill number are recorded only when the transport call succeeds (a failed
call delivers nothing and is either swallowed or raises, per the source);
try-wrapped calls that the source ignores failures of (`delete_message`,
`edit_message_caption`) are recorded as attempts with their outcome. -/
inductive Event where
  | oracleCheck (md5 : String)
  | deleteMessage (chat : Nat) (ok : Bool)
  | sendSuccess (chat : Nat) (bill : String)
  | sendCheckError (chat : Nat) (ok : Bool)
  | sendExpired (chat : Nat) (bill : String)
  | removedLog (bill : String)
  | answerCallback
  | editCaption (chat : Nat) (ok : Bool)
  | sendNotTracked (chat : Nat) (bill : String)
  | sendUnpaid (chat : Nat) (bill : String)
deriving DecidableEq, Repr

/-- The try-wrapped best-effort deletion of the pending QR message
(`if message_id: try: bot.delete_message(...) except: log`), used at src
71-75 and 132-136: an attempt is made (and recorded) only when a message
id is on hand, and its failure is swallowed. -/
def qrDeleteEvents (N : Notifier) (chat : Nat) (mid : Option Nat) : List Event :=
  match mid with
  | some _ => [Event.deleteMessage chat (N.deleteOk chat)]
  | none => []

/-- Embedding of `check_payment_status` (src lines 58-104).  Everything in
its body sits under one `try`, so the function itself never raises: an
Oracle error, or a raise from the success `send_message`, falls into the
`except` branch (src 97-104), which best-effort sends a check-error message
and returns `False`.  On `"PAID"` the source first deletes the QR message
(failure swallowed, src 71-75), then sends the success message (src 78-84),
and only then takes the lock and deletes the record if still present
(src 87-90).  Returns `(payment_confirmed, store, events)`. -/
def check_payment_status (oracle : Oracle) (N : Notifier) (st : Store)
    (bill md5 : String) (chat : Nat) (mid : Option Nat) :
    Bool × Store × List Event :=
  match oracle md5 with
  | .error _ =>
    (false, st, [Event.oracleCheck md5, Event.sendCheckError chat (N.sendOk chat)])
  | .ok status =>
    if status = "PAID" then
      let delEvents : List Event := qrDeleteEvents N chat mid
      if N.sendOk chat then
        if memTx st bill then
          (true, eraseTx st bill,
            Event.oracleCheck md5 :: delEvents ++
              [Event.sendSuccess chat bill, Event.removedLog bill])
        else
          (true, st,
            Event.oracleCheck md5 :: delEvents ++ [Event.sendSuccess chat bill])
      else
        (false, st,
          Event.oracleCheck md5 :: delEvents ++ [Event.sendCheckError chat (N.sendOk chat)])
    else
      (false, st, [Event.oracleCheck md5])

/-- Per-pass loop body of `check_and_cleanup_transactions` over the
snapshot `items` (src lines 121-150), threading the live store.  An expired
item deletes its QR message (failure swallowed, src 133-136) and then calls
`bot.send_message` (src 138-141) with NO surrounding `try`: if that send
raises, the exception escapes the loop — modelled as `.error`.  Unexpired
items go through `check_payment_status`, which never raises.  Returns the
final store, the `transactions_to_remove` list, and the events. -/
def processItems (oracle : Oracle) (N : Notifier) (now : Nat) :
    List (String × TxData) → Store →
    Except (Store × List Event) (Store × List String × List Event)
  | [], st => .ok (st, [], [])
  | (bill, d) :: rest, st =>
    if d.expiry_time < now then
      let delEvents : List Event := qrDeleteEvents N d.chat_id d.message_id
      if N.sendOk d.chat_id then
        match processItems oracle N now rest st with
        | .ok (st2, tr, evs) =>
          .ok (st2, bill :: tr, delEvents ++ Event.sendExpired d.chat_id bill :: evs)
        | .error (st2, evs) =>
          .error (st2, delEvents ++ Event.sendExpired d.chat_id bill :: evs)
      else
        .error (st, delEvents)
    else
      match check_payment_status oracle N st bill d.md5_hash d.chat_id d.message_id with
      | (confirmed, st1, evs1) =>
        match processItems oracle N now rest st1 with
        | .ok (st2, tr, evs) =>
          .ok (st2, (if confirmed then bill :: tr else tr), evs1 ++ evs)
        | .error (st2, evs) => .error (st2, evs1 ++ evs)

/-- Phase 2 of a pass (src lines 153-158): under the lock, delete every
marked key still present, logging each actual removal. -/
def removeMarked : Store → List String → Store × List Event
  | st, [] => (st, [])
  | st, k :: rest =>
    if memTx st k then
      match removeMarked (eraseTx st k) rest with
      | (st2, evs) => (st2, Event.removedLog k :: evs)
    else
      removeMarked st rest

/-- One full tick of `check_and_cleanup_transactions` (src lines 112-158):
snapshot the dict under the lock (src 117-119), run the loop body on the
snapshot, then the removal phase.  An exception escaping the loop skips the
removal phase and propagates (`.error`). -/
def scheduler_pass (oracle : Oracle) (N : Notifier) (now : Nat) (st : Store) :
    Except (Store × List Event) (Store × List Event) :=
  match processItems oracle N now st st with
  | .error (st2, evs) => .error (st2, evs)
  | .ok (st2, tr, evs) =>
    match removeMarked st2 tr with
    | (st3, evs2) => .ok (st3, evs ++ evs2)

/-- The recurring `while True` loop of the background thread (src line
112), run for a given list of tick times: an exception escaping one tick
propagates out of the loop and kills the thread, so no later tick runs. -/
def run_ticks (oracle : Oracle) (N : Notifier) :
    List Nat → Store → Except (Store × List Event) (Store × List Event)
  | [], st => .ok (st, [])
  | now :: rest, st =>
    match scheduler_pass oracle N now st with
    | .error e => .error e
    | .ok (st1, evs) =>
      match run_ticks oracle N rest st1 with
      | .error (st2, evs2) => .error (st2, evs ++ evs2)
      | .ok (st2, evs2) => .ok (st2, evs ++ evs2)

/-- Src line 38: callback data prefix for the confirm button. -/
def CONFIRM_CALLBACK_PREFIX : String := "confirm_"

/-- Src line 240: `callback_data = f"{CONFIRM_CALLBACK_PREFIX}{bill_number}"`,
the prefix concatenated with the bill number. -/
def make_callback_data (bill : String) : String :=
  CONFIRM_CALLBACK_PREFIX ++ bill

/-- Src line 287: `bill_number = call.data[len(CONFIRM_CALLBACK_PREFIX):]`,
dropping the first `len(prefix)` characters. -/
def extract_bill (data : String) : String :=
  data.drop CONFIRM_CALLBACK_PREFIX.length

/-- Result of a button press as the user experiences it. -/
inductive ManualResult where
  | notTracked
  | confirmed
  | unpaidFeedback
deriving DecidableEq, Repr

/-- Embedding of `handle_confirm_payment` (src lines 280-339).
`callChat` is `call.message.chat.id`.  The handler first answers the
callback query (src 284, not try-wrapped: a raise escapes), extracts the
bill number (src 287), then takes the lock (src 290).  If the bill is not
tracked it edits the original caption (try-wrapped, src 293-303) and sends
the not-tracked message (src 305-308, not try-wrapped) — all still inside
the `with transaction_lock` block — and returns.  Otherwise it reads the
record fields, releases the lock, and runs `check_payment_status`
(src 318).  If the payment was not confirmed it edits the caption
(try-wrapped, src 322-337) and sends the still-unpaid message (src 339,
not try-wrapped). -/
def handle_confirm_payment (oracle : Oracle) (N : Notifier) (st : Store)
    (data : String) (callChat : Nat) :
    Except (Store × List Event) (ManualResult × Store × List Event) :=
  if N.answerOk then
    let bill := extract_bill data
    match lookupTx st bill with
    | none =>
      let ev1 := Event.editCaption callChat (N.editOk callChat)
      if N.sendOk callChat then
        .ok (.notTracked, st,
          [Event.answerCallback, ev1, Event.sendNotTracked callChat bill])
      else
        .error (st, [Event.answerCallback, ev1])
    | some d =>
      match check_payment_status oracle N st bill d.md5_hash d.chat_id d.message_id with
      | (confirmed, st1, evs1) =>
        if confirmed then
          .ok (.confirmed, st1, Event.answerCallback :: evs1)
        else
          let ev2 := Event.editCaption d.chat_id (N.editOk d.chat_id)
          if N.sendOk d.chat_id then
            .ok (.unpaidFeedback, st1,
              Event.answerCallback :: evs1 ++ [ev2, Event.sendUnpaid d.chat_id bill])
          else
            .error (st1, Event.answerCallback :: evs1 ++ [ev2])
  else .error (st, [])

/-- Src line 34: `EXPIRATION_SECONDS = 5 * 60`. -/
def EXPIRATION_SECONDS : Nat := 5 * 60

/-- Src line 36: `CHECK_INTERVAL_SECONDS = 30`. -/
def CHECK_INTERVAL_SECONDS : Nat := 30

/-- The store-relevant steps of the `/pay` handler `generate_khqr_payment`
(src lines 178-269): step 2 computes
`expiry_time = time.time() + EXPIRATION_SECONDS` (src 196) with `now` the
current time, and step 8 stores the record by plain dict assignment under
the lock (src 263-269), with `message_id` the id of the sent QR message.
The QR/image generation and the messages sent along the way touch no
engine state and are omitted. -/
def generate_khqr_payment (st : Store) (now : Nat) (bill md5 : String)
    (chat msgId : Nat) : Store :=
  setItem st bill
    { md5_hash := md5, expiry_time := now + EXPIRATION_SECONDS,
      chat_id := chat, message_id := some msgId }

/-- Interleaving of one background tick with one button press, at the
granularity of the source's lock regions and external calls: the tick
takes its snapshot (src 119), then the button handler runs to completion,
then the tick's per-item loop (src 121-150) and removal phase (src
153-158) run against the stale snapshot.  Every lock region executes
atomically, exactly as the lock guarantees. -/
def raced_pass_after_manual (oracle : Oracle) (N : Notifier) (now : Nat)
    (st : Store) (data : String) (callChat : Nat) :
    Except (Store × List Event) (ManualResult × Store × List Event) :=
  match handle_confirm_payment oracle N st data callChat with
  | .error e => .error e
  | .ok (res, st1, ev1) =>
    match processItems oracle N now st st1 with
    | .error (st2, ev2) => .error (st2, ev1 ++ ev2)
    | .ok (st2, tr, ev2) =>
      match removeMarked st2 tr with
      | (st3, ev3) => .ok (res, st3, ev1 ++ ev2 ++ ev3)

/-- Top-level happenings that mutate the store over the process lifetime:
a `/pay` intake, a background tick, a button press. -/
inductive SysEvent where
  | payRequest (now : Nat) (bill md5 : String) (chat msgId : Nat)
  | schedulerTick (now : Nat) (oracle : Oracle) (N : Notifier)
  | buttonPress (oracle : Oracle) (N : Notifier) (data : String) (callChat : Nat)

/-- Store effect of one top-level happening (an escaping exception leaves
the store as it was at the raise). -/
def applyEvent (st : Store) : SysEvent → Store
  | .payRequest now bill md5 chat msgId =>
    generate_khqr_payment st now bill md5 chat msgId
  | .schedulerTick now oracle N =>
    match scheduler_pass oracle N now st with
    | .ok (st1, _) => st1
    | .error (st1, _) => st1
  | .buttonPress oracle N data callChat =>
    match handle_confirm_payment oracle N st data callChat with
    | .ok (_, st1, _) => st1
    | .error (st1, _) => st1

/-- Run a sequence of top-level happenings from a given store. -/
def runTrace : Store → List SysEvent → Store
  | st, [] => st
  | st, e :: rest => runTrace (applyEvent st e) rest

/-- Events that are success notifications for a given bill. -/
def isSuccessNotifFor (bill : String) : Event → Bool
  | .sendSuccess _ b => b == bill
  | _ => false

/-- Events that are expiry notifications for a given bill. -/
def isExpiredNotifFor (bill : String) : Event → Bool
  | .sendExpired _ b => b == bill
  | _ => false

/-- Events that are expiry notifications for any bill. -/
def isExpiredNotif : Event → Bool
  | .sendExpired _ _ => true
  | _ => false

/-- Events logging an actual removal of a given bill from the dict. -/
def isRemovedLogFor (bill : String) : Event → Bool
  | .removedLog b => b == bill
  | _ => false

/-- Events that are Status Oracle calls for a given fingerprint. -/
def isOracleCheckOf (md5 : String) : Event → Bool
  | .oracleCheck m => m == md5
  | _ => false

/-- Events that are check-error messages to the user. -/
def isCheckErrorSend : Event → Bool
  | .sendCheckError _ _ => true
  | _ => false

/-- Events that are calls into the messaging transport (send, edit or
delete), as opposed to Oracle calls, logging, or the callback
acknowledgement. -/
def isNotifierCall : Event → Bool
  | .deleteMessage _ _ => true
  | .sendSuccess _ _ => true
  | .sendCheckError _ _ => true
  | .sendExpired _ _ => true
  | .editCaption _ _ => true
  | .sendNotTracked _ _ => true
  | .sendUnpaid _ _ => true
  | _ => false

/-- Result component of a press outcome, when the handler did not raise. -/
def pressResult (r : Except (Store × List Event) (ManualResult × Store × List Event)) :
    Option ManualResult :=
  match r with
  | .ok (res, _, _) => some res
  | .error _ => none

/-- Store component of a press outcome. -/
def pressStore (r : Except (Store × List Event) (ManualResult × Store × List Event)) :
    Store :=
  match r with
  | .ok (_, st, _) => st
  | .error (st, _) => st

/-- Event log of a press outcome. -/
def pressEvents (r : Except (Store × List Event) (ManualResult × Store × List Event)) :
    List Event :=
  match r with
  | .ok (_, _, evs) => evs
  | .error (_, evs) => evs

/-- Whether a pass (or tick sequence) completed without an escaping
exception. -/
def passOk (r : Except (Store × List Event) (Store × List Event)) : Bool :=
  match r with
  | .ok _ => true
  | .error _ => false

/-- Store component of a pass outcome. -/
def passStore (r : Except (Store × List Event) (Store × List Event)) : Store :=
  match r with
  | .ok (st, _) => st
  | .error (st, _) => st

/-- Event log of a pass outcome. -/
def passEvents (r : Except (Store × List Event) (Store × List Event)) : List Event :=
  match r with
  | .ok (_, evs) => evs
  | .error (_, evs) => evs

/-- Whether the Oracle, when asked for this fingerprint, answers with the
string `"PAID"` (as opposed to any other status or a raised error). -/
def oracleSaysPaid (oracle : Oracle) (md5 : String) : Bool :=
  match oracle md5 with
  | .ok s => s == "PAID"
  | .error _ => false

/-- Store component of a loop-body outcome. -/
def itemsOutStore
    (r : Except (Store × List Event) (Store × List String × List Event)) : Store :=
  match r with
  | .ok (st, _, _) => st
  | .error (st, _) => st

/-- Atomic steps of a source code path, for auditing the discipline of
`transaction_lock`: acquiring or releasing the lock (entering or leaving a
`with transaction_lock` block), an external call into the Telegram or
Bakong network, or an in-memory operation. -/
inductive LockStep where
  | acquire
  | release
  | ext (callName : String)
  | mem (opName : String)
deriving DecidableEq, Repr

/-- Walk a path keeping the lock depth; `true` iff no external call
happens at positive depth. -/
def lockCleanAux : Nat → List LockStep → Bool
  | _, [] => true
  | d, LockStep.acquire :: r => lockCleanAux (d + 1) r
  | d, LockStep.release :: r => lockCleanAux (d - 1) r
  | d, LockStep.ext _ :: r => decide (d = 0) && lockCleanAux d r
  | d, LockStep.mem _ :: r => lockCleanAux d r

/-- A path never performs an external call while holding the lock. -/
def lockClean (t : List LockStep) : Bool := lockCleanAux 0 t

/-- Lock/call structure of `check_payment_status` on the PAID branch
(src 63-90): Oracle call, QR delete, success send, all before the lock;
the record deletion alone under the lock (src 87-90). -/
def check_payment_status_paid_lock_trace : List LockStep :=
  [LockStep.ext "khqr_client.check_payment",
   LockStep.ext "bot.delete_message",
   LockStep.ext "bot.send_message",
   LockStep.acquire,
   LockStep.mem "del active_transactions[bill_number]",
   LockStep.release]

/-- Lock/call structure of `check_payment_status` when the status is not
PAID (src 64, 93-95): just the Oracle call. -/
def check_payment_status_unpaid_lock_trace : List LockStep :=
  [LockStep.ext "khqr_client.check_payment"]

/-- Lock/call structure of `check_payment_status` when the Oracle raises
(src 97-104): the Oracle call, then the check-error send. -/
def check_payment_status_error_lock_trace : List LockStep :=
  [LockStep.ext "khqr_client.check_payment",
   LockStep.ext "bot.send_message"]

/-- Lock/call structure of the snapshot step of a background pass
(src 117-119): only the in-memory copy happens under the lock. -/
def scheduler_snapshot_lock_trace : List LockStep :=
  [LockStep.acquire,
   LockStep.mem "list of active_transactions items",
   LockStep.release]

/-- Lock/call structure of the expiry branch of a background pass
(src 128-143): QR delete and expiry send, no lock held. -/
def scheduler_expiry_item_lock_trace : List LockStep :=
  [LockStep.ext "bot.delete_message",
   LockStep.ext "bot.send_message"]

/-- Lock/call structure of the removal phase of a background pass
(src 153-158): only dict deletions under the lock. -/
def scheduler_removal_lock_trace : List LockStep :=
  [LockStep.acquire,
   LockStep.mem "del active_transactions[key]",
   LockStep.release]

/-- Lock/call structure of the record insertion in `/pay` (src 262-269):
only the dict assignment under the lock. -/
def pay_insert_lock_trace : List LockStep :=
  [LockStep.acquire,
   LockStep.mem "active_transactions[bill_number] = record",
   LockStep.release]

/-- Lock/call structure of the not-tracked branch of
`handle_confirm_payment` (src 284-309): callback answer before the lock,
then — still inside the `with transaction_lock` block — the membership
test, the caption edit (src 294-300) and the not-tracked send
(src 305-308), before the block is left at the `return` (src 309). -/
def confirm_not_tracked_lock_trace : List LockStep :=
  [LockStep.ext "bot.answer_callback_query",
   LockStep.acquire,
   LockStep.mem "bill_number not in active_transactions",
   LockStep.ext "bot.edit_message_caption",
   LockStep.ext "bot.send_message",
   LockStep.release]

/-- Lock/call structure of the tracked prefix of `handle_confirm_payment`
(src 284-316): callback answer, then membership test and record reads
inside the lock, released before the payment check (src 318). -/
def confirm_tracked_read_lock_trace : List LockStep :=
  [LockStep.ext "bot.answer_callback_query",
   LockStep.acquire,
   LockStep.mem "bill_number in active_transactions",
   LockStep.mem "read md5_hash chat_id message_id",
   LockStep.release]

/-- Lock/call structure of the unpaid-feedback tail of
`handle_confirm_payment` (src 320-339): caption edit and unpaid send, no
lock held. -/
def confirm_unpaid_feedback_lock_trace : List LockStep :=
  [LockStep.ext "bot.edit_message_caption",
   LockStep.ext "bot.send_message"]

/-- Every lock/call path of the program that touches `transaction_lock`
or an external service. -/
def all_lock_traces : List (List LockStep) :=
  [check_payment_status_paid_lock_trace,
   check_payment_status_unpaid_lock_trace,
   check_payment_status_error_lock_trace,
   scheduler_snapshot_lock_trace,
   scheduler_expiry_item_lock_trace,
   scheduler_removal_lock_trace,
   pay_insert_lock_trace,
   confirm_not_tracked_lock_trace,
   confirm_tracked_read_lock_trace,
   confirm_unpaid_feedback_lock_trace]

/-- A transport where every call succeeds. -/
def notifierAllOk : Notifier :=
  ⟨fun _ => true, fun _ => true, fun _ => true, true⟩

/-- A transport where message sends to chat 7 raise and everything else
succeeds. -/
def notifierChat7Down : Notifier :=
  ⟨fun _ => true, fun c => c != 7, fun _ => true, true⟩

/-- An Oracle that answers UNPAID for every fingerprint. -/
def oracleUnpaid : Oracle := fun _ => .ok "UNPAID"

/-- An Oracle whose calls all raise. -/
def oracleDown : Oracle := fun _ => .error ()

/-- An Oracle that answers PAID for the fingerprint `"md5x"` and UNPAID
otherwise. -/
def oraclePaidMd5x : Oracle :=
  fun m => if m = "md5x" then .ok "PAID" else .ok "UNPAID"

/-- Fixture store for the notification race: one live transaction. -/
def c1store : Store := [("TRX1", ⟨"md5x", 1000, 7, some 42⟩)]

/-- The race of the concrete scenario: the background tick snapshots,
the button press completes, then the tick processes the stale snapshot. -/
def c1race : Except (Store × List Event) (ManualResult × Store × List Event) :=
  raced_pass_after_manual oraclePaidMd5x notifierAllOk 10 c1store
    (make_callback_data "TRX1") 7

/-- Fixture store with a record that expired at time 10. -/
def c2store : Store := [("TRX1", ⟨"m5", 10, 7, some 3⟩)]

/-- A button press on the expired record, long after its deadline. -/
def c2press : Except (Store × List Event) (ManualResult × Store × List Event) :=
  handle_confirm_payment oracleUnpaid notifierAllOk c2store
    (make_callback_data "TRX1") 9

/-- Fixture store with one live, unexpired transaction. -/
def c3store : Store := [("TRX1", ⟨"m5", 1000, 7, some 3⟩)]

/-- A background pass over it while the Oracle is down. -/
def c3pass : Except (Store × List Event) (Store × List Event) :=
  scheduler_pass oracleDown notifierAllOk 10 c3store

/-- Fixture store with an expired transaction for chat 7 and a live one
for chat 8. -/
def c4store : Store :=
  [("T1", ⟨"m1", 5, 7, some 1⟩), ("T2", ⟨"m2", 1000, 8, some 2⟩)]

/-- A button press on a bill number that was never inserted. -/
def c6press : Except (Store × List Event) (ManualResult × Store × List Event) :=
  handle_confirm_payment oracleUnpaid notifierAllOk []
    (make_callback_data "TRX9") 9

section StoreLemmas

theorem lookupTx_eraseTx_self (st : Store) (b : String) :
    lookupTx (eraseTx st b) b = none := by
  induction st with
  | nil => rfl
  | cons hd tl ih =>
    rcases hd with ⟨k, v⟩
    by_cases hk : k = b
    · simpa [eraseTx, hk] using ih
    · simpa [eraseTx, lookupTx, hk] using ih

theorem lookupTx_eraseTx_some {st : Store} {k b : String} {r : TxData}
    (h : lookupTx (eraseTx st k) b = some r) : lookupTx st b = some r := by
  induction st with
  | nil => simp [eraseTx, lookupTx] at h
  | cons hd tl ih =>
    rcases hd with ⟨k0, v⟩
    by_cases hk : k0 = k
    · by_cases hb : k0 = b
      · exfalso
        have hkb : k = b := hk.symm.trans hb
        rw [eraseTx, if_pos hk, hkb, lookupTx_eraseTx_self tl b] at h
        exact Option.noConfusion h
      · rw [eraseTx, if_pos hk] at h
        simpa [lookupTx, hb] using ih h
    · rw [eraseTx, if_neg hk] at h
      by_cases hb : k0 = b
      · simp only [lookupTx, if_pos hb] at h ⊢
        exact h
      · simp only [lookupTx, if_neg hb] at h ⊢
        exact ih h

theorem lookupTx_eraseTx_none {st : Store} {b : String} (k : String)
    (h : lookupTx st b = none) : lookupTx (eraseTx st k) b = none := by
  induction st with
  | nil => rfl
  | cons hd tl ih =>
    rcases hd with ⟨k0, v⟩
    by_cases hb : k0 = b
    · simp [lookupTx, hb] at h
    · simp only [lookupTx, if_neg hb] at h
      by_cases hk : k0 = k
      · rw [eraseTx, if_pos hk]
        exact ih h
      · rw [eraseTx, if_neg hk]
        simpa [lookupTx, hb] using ih h

theorem lookupTx_setItem {st : Store} {k b : String} {v r : TxData}
    (h : lookupTx (setItem st k v) b = some r) :
    (b = k ∧ r = v) ∨ lookupTx st b = some r := by
  induction st with
  | nil =>
    by_cases hb : k = b
    · simp [setItem, lookupTx, hb] at h
      exact Or.inl ⟨hb.symm, h.symm⟩
    · simp [setItem, lookupTx, hb] at h
  | cons hd tl ih =>
    rcases hd with ⟨k0, w⟩
    by_cases hk : k0 = k
    · rw [setItem, if_pos hk] at h
      by_cases hb : k0 = b
      · simp only [lookupTx, if_pos hb] at h
        exact Or.inl ⟨(hb.symm.trans hk), (Option.some.injEq ..▸ h).symm⟩
      · simp only [lookupTx, if_neg hb] at h ⊢
        exact Or.inr h
    · rw [setItem, if_neg hk] at h
      by_cases hb : k0 = b
      · simp only [lookupTx, if_pos hb] at h ⊢
        exact Or.inr h
      · simp only [lookupTx, if_neg hb] at h ⊢
        exact ih h

theorem lookupTx_setItem_self (st : Store) (k : String) (v : TxData) :
    lookupTx (setItem st k v) k = some v := by
  induction st with
  | nil => simp [setItem, lookupTx]
  | cons hd tl ih =>
    rcases hd with ⟨k0, w⟩
    by_cases hk : k0 = k
    · simp [setItem, lookupTx, hk]
    · simp only [setItem, if_neg hk, lookupTx, if_neg hk]
      exact ih

theorem lookupTx_some_mem {st : Store} {b : String} {r : TxData}
    (h : lookupTx st b = some r) : (b, r) ∈ st := by
  induction st with
  | nil => simp [lookupTx] at h
  | cons hd tl ih =>
    rcases hd with ⟨k0, v⟩
    by_cases hb : k0 = b
    · simp only [lookupTx, if_pos hb] at h
      subst hb
      exact (Option.some.injEq ..▸ h) ▸ List.mem_cons_self ..
    · simp only [lookupTx, if_neg hb] at h
      exact List.mem_cons_of_mem _ (ih h)

theorem mem_lookupTx_nodup {st : Store} {b : String} {r : TxData}
    (hnd : (st.map Prod.fst).Nodup) (h : (b, r) ∈ st) :
    lookupTx st b = some r := by
  induction st with
  | nil => simp at h
  | cons hd tl ih =>
    rcases hd with ⟨k0, v⟩
    simp only [List.map_cons, List.nodup_cons] at hnd
    rcases List.mem_cons.mp h with he | hm
    · rw [Prod.mk.injEq] at he
      simp [lookupTx, he.1.symm, he.2]
    · have hb : k0 ≠ b := by
        intro hk
        exact hnd.1 (hk ▸ List.mem_map_of_mem Prod.fst hm)
      simp only [lookupTx, if_neg hb]
      exact ih hnd.2 hm

theorem countP_keyed {st : Store} {b : String} {rec : TxData}
    (q : String × TxData → Bool) (hnd : (st.map Prod.fst).Nodup)
    (h : lookupTx st b = some rec)
    (hq : ∀ it, q it = true → it.1 = b) :
    st.countP q = if q (b, rec) then 1 else 0 := by
  induction st with
  | nil => simp [lookupTx] at h
  | cons hd tl ih =>
    rcases hd with ⟨k0, v⟩
    simp only [List.map_cons, List.nodup_cons] at hnd
    by_cases hb : k0 = b
    · subst hb
      simp only [lookupTx, if_pos rfl] at h
      have hv : v = rec := by injection h
      subst hv
      have htl : tl.countP q = 0 := by
        rw [List.countP_eq_zero]
        intro it hit hqit
        exact hnd.1 (hq it hqit ▸ List.mem_map_of_mem Prod.fst hit)
      rw [List.countP_cons, htl]
      simp
    · simp only [lookupTx, if_neg hb] at h
      have hhd : q (k0, v) = false := by
        rcases hx : q (k0, v) with _ | _
        · rfl
        · exact absurd (hq (k0, v) hx) hb
      rw [List.countP_cons, hhd, ih hnd.2 h]
      simp

end StoreLemmas

section CheckLemmas

variable {oracle : Oracle} {N : Notifier} {st : Store} {bill md5 : String}
  {chat : Nat} {mid : Option Nat}

theorem check_eq_error (h : oracle md5 = .error ()) :
    check_payment_status oracle N st bill md5 chat mid
      = (false, st, [Event.oracleCheck md5, Event.sendCheckError chat (N.sendOk chat)]) := by
  simp [check_payment_status, h]

theorem check_eq_unpaid {status : String} (h : oracle md5 = .ok status)
    (hs : status ≠ "PAID") :
    check_payment_status oracle N st bill md5 chat mid
      = (false, st, [Event.oracleCheck md5]) := by
  simp [check_payment_status, h, hs]

theorem check_eq_paid_present (h : oracle md5 = .ok "PAID")
    (hsend : N.sendOk chat = true) (hmem : memTx st bill = true) :
    check_payment_status oracle N st bill md5 chat mid
      = (true, eraseTx st bill,
          Event.oracleCheck md5 :: qrDeleteEvents N chat mid ++
            [Event.sendSuccess chat bill, Event.removedLog bill]) := by
  simp [check_payment_status, h, hsend, hmem]

theorem check_eq_paid_absent (h : oracle md5 = .ok "PAID")
    (hsend : N.sendOk chat = true) (hmem : memTx st bill = false) :
    check_payment_status oracle N st bill md5 chat mid
      = (true, st,
          Event.oracleCheck md5 :: qrDeleteEvents N chat mid ++
            [Event.sendSuccess chat bill]) := by
  simp [check_payment_status, h, hsend, hmem]

theorem check_eq_paid_sendfail (h : oracle md5 = .ok "PAID")
    (hsend : N.sendOk chat = false) :
    check_payment_status oracle N st bill md5 chat mid
      = (false, st,
          Event.oracleCheck md5 :: qrDeleteEvents N chat mid ++
            [Event.sendCheckError chat (N.sendOk chat)]) := by
  simp [check_payment_status, h, hsend]

theorem qrDelete_countP_zero (p : Event → Bool)
    (hp : ∀ c ok, p (Event.deleteMessage c ok) = false)
    (N : Notifier) (chat : Nat) (mid : Option Nat) :
    (qrDeleteEvents N chat mid).countP p = 0 := by
  cases mid <;> simp [qrDeleteEvents, hp]

theorem check_store_cases :
    (check_payment_status oracle N st bill md5 chat mid).2.1 = st ∨
    (check_payment_status oracle N st bill md5 chat mid).2.1 = eraseTx st bill := by
  cases horacle : oracle md5 with
  | error e =>
    cases e
    rw [check_eq_error horacle]
    exact Or.inl rfl
  | ok status =>
    by_cases hs : status = "PAID"
    · subst hs
      by_cases hsend : N.sendOk chat
      · by_cases hmem : memTx st bill
        · rw [check_eq_paid_present horacle hsend hmem]
          exact Or.inr rfl
        · rw [check_eq_paid_absent horacle hsend (Bool.not_eq_true _ ▸ hmem)]
          exact Or.inl rfl
      · rw [check_eq_paid_sendfail horacle (Bool.not_eq_true _ ▸ hsend)]
        exact Or.inl rfl
    · rw [check_eq_unpaid horacle hs]
      exact Or.inl rfl

theorem check_lookup_some {b : String} {r : TxData}
    (h : lookupTx (check_payment_status oracle N st bill md5 chat mid).2.1 b = some r) :
    lookupTx st b = some r := by
  rcases @check_store_cases oracle N st bill md5 chat mid with hc | hc
  · rwa [hc] at h
  · rw [hc] at h
    exact lookupTx_eraseTx_some h

theorem check_lookup_none {b : String}
    (h : lookupTx st b = none) :
    lookupTx (check_payment_status oracle N st bill md5 chat mid).2.1 b = none := by
  rcases @check_store_cases oracle N st bill md5 chat mid with hc | hc
  · rwa [hc]
  · rw [hc]
    exact lookupTx_eraseTx_none bill h

theorem check_count_oracle (m : String) :
    ((check_payment_status oracle N st bill md5 chat mid).2.2).countP (isOracleCheckOf m)
      = if md5 == m then 1 else 0 := by
  have hdel : ∀ c ok, isOracleCheckOf m (Event.deleteMessage c ok) = false :=
    fun _ _ => rfl
  cases horacle : oracle md5 with
  | error e =>
    cases e
    rw [check_eq_error horacle]
    simp [List.countP_cons, isOracleCheckOf]
  | ok status =>
    by_cases hs : status = "PAID"
    · subst hs
      by_cases hsend : N.sendOk chat
      · by_cases hmem : memTx st bill
        · rw [check_eq_paid_present horacle hsend hmem]
          simp [List.countP_cons, List.countP_append,
            qrDelete_countP_zero _ hdel, isOracleCheckOf]
        · rw [check_eq_paid_absent horacle hsend (Bool.not_eq_true _ ▸ hmem)]
          simp [List.countP_cons, List.countP_append,
            qrDelete_countP_zero _ hdel, isOracleCheckOf]
      · rw [check_eq_paid_sendfail horacle (Bool.not_eq_true _ ▸ hsend)]
        simp [List.countP_cons, List.countP_append,
          qrDelete_countP_zero _ hdel, isOracleCheckOf]
    · rw [check_eq_unpaid horacle hs]
      simp [List.countP_cons, isOracleCheckOf]

theorem check_count_success (b : String) :
    ((check_payment_status oracle N st bill md5 chat mid).2.2).countP (isSuccessNotifFor b)
      = if bill == b && oracleSaysPaid oracle md5 && N.sendOk chat then 1 else 0 := by
  have hdel : ∀ c ok, isSuccessNotifFor b (Event.deleteMessage c ok) = false :=
    fun _ _ => rfl
  cases horacle : oracle md5 with
  | error e =>
    cases e
    rw [check_eq_error horacle]
    simp [List.countP_cons, isSuccessNotifFor, oracleSaysPaid, horacle]
  | ok status =>
    by_cases hs : status = "PAID"
    · subst hs
      by_cases hsend : N.sendOk chat
      · by_cases hmem : memTx st bill
        · rw [check_eq_paid_present horacle hsend hmem]
          simp [List.countP_cons, List.countP_append,
            qrDelete_countP_zero _ hdel, isSuccessNotifFor, isRemovedLogFor,
            oracleSaysPaid, horacle, hsend]
        · rw [check_eq_paid_absent horacle hsend (Bool.not_eq_true _ ▸ hmem)]
          simp [List.countP_cons, List.countP_append,
            qrDelete_countP_zero _ hdel, isSuccessNotifFor,
            oracleSaysPaid, horacle, hsend]
      · rw [check_eq_paid_sendfail horacle (Bool.not_eq_true _ ▸ hsend)]
        simp [List.countP_cons, List.countP_append,
          qrDelete_countP_zero _ hdel, isSuccessNotifFor,
          oracleSaysPaid, horacle, hsend]
    · rw [check_eq_unpaid horacle hs]
      simp [List.countP_cons, isSuccessNotifFor, oracleSaysPaid, horacle, hs]

theorem check_count_expiredNotif :
    ((check_payment_status oracle N st bill md5 chat mid).2.2).countP isExpiredNotif
      = 0 := by
  have hdel : ∀ c ok, isExpiredNotif (Event.deleteMessage c ok) = false :=
    fun _ _ => rfl
  cases horacle : oracle md5 with
  | error e =>
    cases e
    rw [check_eq_error horacle]
    simp [List.countP_cons, isExpiredNotif]
  | ok status =>
    by_cases hs : status = "PAID"
    · subst hs
      by_cases hsend : N.sendOk chat
      · by_cases hmem : memTx st bill
        · rw [check_eq_paid_present horacle hsend hmem]
          simp [List.countP_cons, List.countP_append,
            qrDelete_countP_zero _ hdel, isExpiredNotif]
        · rw [check_eq_paid_absent horacle hsend (Bool.not_eq_true _ ▸ hmem)]
          simp [List.countP_cons, List.countP_append,
            qrDelete_countP_zero _ hdel, isExpiredNotif]
      · rw [check_eq_paid_sendfail horacle (Bool.not_eq_true _ ▸ hsend)]
        simp [List.countP_cons, List.countP_append,
          qrDelete_countP_zero _ hdel, isExpiredNotif]
    · rw [check_eq_unpaid horacle hs]
      simp [List.countP_cons, isExpiredNotif]

theorem check_count_expiredNotifFor (b : String) :
    ((check_payment_status oracle N st bill md5 chat mid).2.2).countP (isExpiredNotifFor b)
      = 0 := by
  have h := @check_count_expiredNotif oracle N st bill md5 chat mid
  have hle : ((check_payment_status oracle N st bill md5 chat mid).2.2).countP
        (isExpiredNotifFor b)
      ≤ ((check_payment_status oracle N st bill md5 chat mid).2.2).countP
        isExpiredNotif := by
    apply List.countP_mono_left
    intro e _ he
    cases e <;> simp [isExpiredNotifFor, isExpiredNotif] at he ⊢
  omega

theorem check_count_removed_none {b : String}
    (h : lookupTx st b = none) :
    ((check_payment_status oracle N st bill md5 chat mid).2.2).countP (isRemovedLogFor b)
      = 0 := by
  have hdel : ∀ c ok, isRemovedLogFor b (Event.deleteMessage c ok) = false :=
    fun _ _ => rfl
  cases horacle : oracle md5 with
  | error e =>
    cases e
    rw [check_eq_error horacle]
    simp [List.countP_cons, isRemovedLogFor]
  | ok status =>
    by_cases hs : status = "PAID"
    · subst hs
      by_cases hsend : N.sendOk chat
      · by_cases hmem : memTx st bill
        · rw [check_eq_paid_present horacle hsend hmem]
          have hbb : (bill == b) = false := by
            by_cases hb : bill = b
            · subst hb
              rw [memTx, h] at hmem
              exact absurd hmem (by simp)
            · simp [hb]
          simp [List.countP_cons, List.countP_append,
            qrDelete_countP_zero _ hdel, isRemovedLogFor, hbb]
        · rw [check_eq_paid_absent horacle hsend (Bool.not_eq_true _ ▸ hmem)]
          simp [List.countP_cons, List.countP_append,
            qrDelete_countP_zero _ hdel, isRemovedLogFor]
      · rw [check_eq_paid_sendfail horacle (Bool.not_eq_true _ ▸ hsend)]
        simp [List.countP_cons, List.countP_append,
          qrDelete_countP_zero _ hdel, isRemovedLogFor]
    · rw [check_eq_unpaid horacle hs]
      simp [List.countP_cons, isRemovedLogFor]

theorem check_confirmed_iff :
    (check_payment_status oracle N st bill md5 chat mid).1 = true ↔
    (oracleSaysPaid oracle md5 = true ∧ N.sendOk chat = true) := by
  cases horacle : oracle md5 with
  | error e =>
    cases e
    rw [check_eq_error horacle]
    simp [oracleSaysPaid, horacle]
  | ok status =>
    by_cases hs : status = "PAID"
    · subst hs
      by_cases hsend : N.sendOk chat
      · by_cases hmem : memTx st bill
        · rw [check_eq_paid_present horacle hsend hmem]
          simp [oracleSaysPaid, horacle, hsend]
        · rw [check_eq_paid_absent horacle hsend (Bool.not_eq_true _ ▸ hmem)]
          simp [oracleSaysPaid, horacle, hsend]
      · rw [check_eq_paid_sendfail horacle (Bool.not_eq_true _ ▸ hsend)]
        simp [oracleSaysPaid, horacle, Bool.not_eq_true _ ▸ hsend]
    · rw [check_eq_unpaid horacle hs]
      simp [oracleSaysPaid, horacle, hs]

end CheckLemmas

section PassLemmas

variable {oracle : Oracle} {N : Notifier} {now : Nat}

theorem processItems_isOk (hN : ∀ c, N.sendOk c = true) :
    ∀ (items : List (String × TxData)) (st : Store),
    ∃ st2 tr evs, processItems oracle N now items st = .ok (st2, tr, evs) := by
  intro items
  induction items with
  | nil => exact fun st => ⟨st, [], [], rfl⟩
  | cons it rest ih =>
    intro st
    rcases it with ⟨bill0, d⟩
    by_cases hexp : d.expiry_time < now
    · obtain ⟨st2, tr, evs, hrec⟩ := ih st
      refine ⟨st2, bill0 :: tr,
        qrDeleteEvents N d.chat_id d.message_id ++
          Event.sendExpired d.chat_id bill0 :: evs, ?_⟩
      simp [processItems, hexp, hN d.chat_id, hrec]
    · rcases hchk : check_payment_status oracle N st bill0 d.md5_hash d.chat_id d.message_id
        with ⟨confirmed, st1, evs1⟩
      obtain ⟨st2, tr, evs, hrec⟩ := ih st1
      refine ⟨st2, (if confirmed then bill0 :: tr else tr), evs1 ++ evs, ?_⟩
      simp [processItems, hexp, hchk, hrec]

theorem processItems_lookup_some :
    ∀ (items : List (String × TxData)) (st : Store) {b : String} {r : TxData},
    lookupTx (itemsOutStore (processItems oracle N now items st)) b = some r →
    lookupTx st b = some r := by
  intro items
  induction items with
  | nil => exact fun st _ _ h => h
  | cons it rest ih =>
    intro st b r h
    rcases it with ⟨bill0, d⟩
    by_cases hexp : d.expiry_time < now
    · by_cases hsend : N.sendOk d.chat_id
      · rcases hrec : processItems oracle N now rest st with e | o
        · rcases e with ⟨st2, evs⟩
          rw [processItems] at h
          simp only [hexp, if_pos, hsend, hrec] at h
          simp only [itemsOutStore] at h
          have := ih st (b := b) (r := r)
          rw [hrec] at this
          exact this (by simpa [itemsOutStore] using h)
        · rcases o with ⟨st2, tr, evs⟩
          rw [processItems] at h
          simp only [hexp, if_pos, hsend, hrec] at h
          simp only [itemsOutStore] at h
          have := ih st (b := b) (r := r)
          rw [hrec] at this
          exact this (by simpa [itemsOutStore] using h)
      · rw [processItems] at h
        simp only [hexp, if_pos, hsend] at h
        simpa [itemsOutStore] using h
    · rcases hchk : check_payment_status oracle N st bill0 d.md5_hash d.chat_id d.message_id
        with ⟨confirmed, st1, evs1⟩
      rcases hrec : processItems oracle N now rest st1 with e | o
      · rcases e with ⟨st2, evs⟩
        rw [processItems] at h
        simp only [hexp, if_neg, hchk, hrec] at h
        simp only [itemsOutStore] at h
        have hrest := ih st1 (b := b) (r := r)
        rw [hrec] at hrest
        have h1 := hrest (by simpa [itemsOutStore] using h)
        have := @check_lookup_some oracle N st bill0 d.md5_hash d.chat_id d.message_id
          b r
        rw [hchk] at this
        exact this h1
      · rcases o with ⟨st2, tr, evs⟩
        rw [processItems] at h
        simp only [hexp, if_neg, hchk, hrec] at h
        simp only [itemsOutStore] at h
        have hrest := ih st1 (b := b) (r := r)
        rw [hrec] at hrest
        have h1 := hrest (by simpa [itemsOutStore] using h)
        have := @check_lookup_some oracle N st bill0 d.md5_hash d.chat_id d.message_id
          b r
        rw [hchk] at this
        exact this h1

theorem processItems_absent :
    ∀ (items : List (String × TxData)) (st : Store) {b : String}
      {st2 : Store} {tr : List String} {evs : List Event},
    lookupTx st b = none →
    processItems oracle N now items st = .ok (st2, tr, evs) →
    lookupTx st2 b = none ∧ evs.countP (isRemovedLogFor b) = 0 := by
  intro items
  induction items with
  | nil =>
    intro st b st2 tr evs hb h
    rw [processItems] at h
    cases h
    exact ⟨hb, rfl⟩
  | cons it rest ih =>
    intro st b st2 tr evs hb h
    rcases it with ⟨bill0, d⟩
    by_cases hexp : d.expiry_time < now
    · by_cases hsend : N.sendOk d.chat_id
      · rcases hrec : processItems oracle N now rest st with e | o
        · rw [processItems] at h
          simp [hexp, hsend, hrec] at h
        · rcases o with ⟨st2x, trx, evsx⟩
          rw [processItems] at h
          simp [hexp, hsend, hrec] at h
          obtain ⟨h1, h2, h3⟩ := h
          subst h1
          subst h3
          obtain ⟨h4, h5⟩ := ih st hb hrec
          refine ⟨h4, ?_⟩
          rw [List.countP_append, List.countP_cons,
            qrDelete_countP_zero _ (fun _ _ => rfl), h5]
          simp [isRemovedLogFor]
      · rw [processItems] at h
        simp [hexp, hsend] at h
    · rcases hchk : check_payment_status oracle N st bill0 d.md5_hash d.chat_id d.message_id
        with ⟨confirmed, st1, evs1⟩
      rcases hrec : processItems oracle N now rest st1 with e | o
      · rw [processItems] at h
        simp [hexp, hchk, hrec] at h
      · rcases o with ⟨st2x, trx, evsx⟩
        rw [processItems] at h
        simp [hexp, hchk, hrec] at h
        obtain ⟨h1, h2, h3⟩ := h
        subst h1
        subst h3
        have hb1 : lookupTx st1 b = none := by
          have := @check_lookup_none oracle N st bill0 d.md5_hash d.chat_id
            d.message_id b hb
          rwa [hchk] at this
        obtain ⟨h1, h2⟩ := ih st1 hb1 hrec
        refine ⟨h1, ?_⟩
        have hc : evs1.countP (isRemovedLogFor b) = 0 := by
          have := @check_count_removed_none oracle N st bill0 d.md5_hash d.chat_id
            d.message_id b hb
          rwa [hchk] at this
        rw [List.countP_append, hc, h2]

theorem processItems_count_expiredFor (b : String) :
    ∀ (items : List (String × TxData)) (st : Store)
      {st2 : Store} {tr : List String} {evs : List Event},
    processItems oracle N now items st = .ok (st2, tr, evs) →
    evs.countP (isExpiredNotifFor b)
      = items.countP (fun it => it.1 == b && decide (it.2.expiry_time < now)) := by
  intro items
  induction items with
  | nil =>
    intro st st2 tr evs h
    rw [processItems] at h
    cases h
    rfl
  | cons it rest ih =>
    intro st st2 tr evs h
    rcases it with ⟨bill0, d⟩
    by_cases hexp : d.expiry_time < now
    · by_cases hsend : N.sendOk d.chat_id
      · rcases hrec : processItems oracle N now rest st with e | o
        · rw [processItems] at h
          simp [hexp, hsend, hrec] at h
        · rcases o with ⟨st2x, trx, evsx⟩
          rw [processItems] at h
          simp [hexp, hsend, hrec] at h
          obtain ⟨h1, h2, h3⟩ := h
          subst h3
          rw [List.countP_append, List.countP_cons,
            qrDelete_countP_zero _ (fun _ _ => rfl), ih st hrec,
            List.countP_cons]
          simp [isExpiredNotifFor, hexp]
      · rw [processItems] at h
        simp [hexp, hsend] at h
    · rcases hchk : check_payment_status oracle N st bill0 d.md5_hash d.chat_id d.message_id
        with ⟨confirmed, st1, evs1⟩
      rcases hrec : processItems oracle N now rest st1 with e | o
      · rw [processItems] at h
        simp [hexp, hchk, hrec] at h
      · rcases o with ⟨st2x, trx, evsx⟩
        rw [processItems] at h
        simp [hexp, hchk, hrec] at h
        obtain ⟨h1, h2, h3⟩ := h
        subst h3
        have hc : evs1.countP (isExpiredNotifFor b) = 0 := by
          have := @check_count_expiredNotifFor oracle N st bill0 d.md5_hash d.chat_id
            d.message_id b
          rwa [hchk] at this
        rw [List.countP_append, hc, ih st1 hrec, List.countP_cons]
        simp [hexp]

theorem processItems_count_oracle (m : String) :
    ∀ (items : List (String × TxData)) (st : Store)
      {st2 : Store} {tr : List String} {evs : List Event},
    processItems oracle N now items st = .ok (st2, tr, evs) →
    evs.countP (isOracleCheckOf m)
      = items.countP (fun it => it.2.md5_hash == m && !decide (it.2.expiry_time < now)) := by
  intro items
  induction items with
  | nil =>
    intro st st2 tr evs h
    rw [processItems] at h
    cases h
    rfl
  | cons it rest ih =>
    intro st st2 tr evs h
    rcases it with ⟨bill0, d⟩
    by_cases hexp : d.expiry_time < now
    · by_cases hsend : N.sendOk d.chat_id
      · rcases hrec : processItems oracle N now rest st with e | o
        · rw [processItems] at h
          simp [hexp, hsend, hrec] at h
        · rcases o with ⟨st2x, trx, evsx⟩
          rw [processItems] at h
          simp [hexp, hsend, hrec] at h
          obtain ⟨h1, h2, h3⟩ := h
          subst h3
          rw [List.countP_append, List.countP_cons,
            qrDelete_countP_zero _ (fun _ _ => rfl), ih st hrec,
            List.countP_cons]
          simp [isOracleCheckOf, hexp]
      · rw [processItems] at h
        simp [hexp, hsend] at h
    · rcases hchk : check_payment_status oracle N st bill0 d.md5_hash d.chat_id d.message_id
        with ⟨confirmed, st1, evs1⟩
      rcases hrec : processItems oracle N now rest st1 with e | o
      · rw [processItems] at h
        simp [hexp, hchk, hrec] at h
      · rcases o with ⟨st2x, trx, evsx⟩
        rw [processItems] at h
        simp [hexp, hchk, hrec] at h
        obtain ⟨h1, h2, h3⟩ := h
        subst h3
        have hc : evs1.countP (isOracleCheckOf m)
            = if d.md5_hash == m then 1 else 0 := by
          have := @check_count_oracle oracle N st bill0 d.md5_hash d.chat_id
            d.message_id m
          rwa [hchk] at this
        rw [List.countP_append, hc, ih st1 hrec, List.countP_cons]
        simp [hexp]
        omega

theorem processItems_count_success (b : String) :
    ∀ (items : List (String × TxData)) (st : Store)
      {st2 : Store} {tr : List String} {evs : List Event},
    processItems oracle N now items st = .ok (st2, tr, evs) →
    evs.countP (isSuccessNotifFor b)
      = items.countP (fun it =>
          it.1 == b && !decide (it.2.expiry_time < now)
            && oracleSaysPaid oracle it.2.md5_hash && N.sendOk it.2.chat_id) := by
  intro items
  induction items with
  | nil =>
    intro st st2 tr evs h
    rw [processItems] at h
    cases h
    rfl
  | cons it rest ih =>
    intro st st2 tr evs h
    rcases it with ⟨bill0, d⟩
    by_cases hexp : d.expiry_time < now
    · by_cases hsend : N.sendOk d.chat_id
      · rcases hrec : processItems oracle N now rest st with e | o
        · rw [processItems] at h
          simp [hexp, hsend, hrec] at h
        · rcases o with ⟨st2x, trx, evsx⟩
          rw [processItems] at h
          simp [hexp, hsend, hrec] at h
          obtain ⟨h1, h2, h3⟩ := h
          subst h3
          rw [List.countP_append, List.countP_cons,
            qrDelete_countP_zero _ (fun _ _ => rfl), ih st hrec,
            List.countP_cons]
          simp [isSuccessNotifFor, hexp]
      · rw [processItems] at h
        simp [hexp, hsend] at h
    · rcases hchk : check_payment_status oracle N st bill0 d.md5_hash d.chat_id d.message_id
        with ⟨confirmed, st1, evs1⟩
      rcases hrec : processItems oracle N now rest st1 with e | o
      · rw [processItems] at h
        simp [hexp, hchk, hrec] at h
      · rcases o with ⟨st2x, trx, evsx⟩
        rw [processItems] at h
        simp [hexp, hchk, hrec] at h
        obtain ⟨h1, h2, h3⟩ := h
        subst h3
        have hc : evs1.countP (isSuccessNotifFor b)
            = if bill0 == b && oracleSaysPaid oracle d.md5_hash && N.sendOk d.chat_id
              then 1 else 0 := by
          have := @check_count_success oracle N st bill0 d.md5_hash d.chat_id
            d.message_id b
          rwa [hchk] at this
        rw [List.countP_append, hc, ih st1 hrec, List.countP_cons]
        simp [hexp]
        omega

theorem processItems_mem_toRemove :
    ∀ (items : List (String × TxData)) (st : Store)
      {st2 : Store} {tr : List String} {evs : List Event} {bill : String} {d : TxData},
    processItems oracle N now items st = .ok (st2, tr, evs) →
    (bill, d) ∈ items →
    (d.expiry_time < now ∨
      (oracleSaysPaid oracle d.md5_hash = true ∧ N.sendOk d.chat_id = true)) →
    bill ∈ tr := by
  intro items
  induction items with
  | nil =>
    intro st st2 tr evs bill d _ hmem _
    simp at hmem
  | cons it rest ih =>
    intro st st2 tr evs bill d h hmem hcond
    rcases it with ⟨bill0, d0⟩
    by_cases hexp : d0.expiry_time < now
    · by_cases hsend : N.sendOk d0.chat_id
      · rcases hrec : processItems oracle N now rest st with e | o
        · rw [processItems] at h
          simp [hexp, hsend, hrec] at h
        · rcases o with ⟨st2x, trx, evsx⟩
          rw [processItems] at h
          simp [hexp, hsend, hrec] at h
          obtain ⟨h1, h2, h3⟩ := h
          subst h2
          rcases List.mem_cons.mp hmem with he | hm
          · rw [Prod.mk.injEq] at he
            exact he.1 ▸ List.mem_cons_self ..
          · exact List.mem_cons_of_mem _ (ih st hrec hm hcond)
      · rw [processItems] at h
        simp [hexp, hsend] at h
    · rcases hchk : check_payment_status oracle N st bill0 d0.md5_hash d0.chat_id d0.message_id
        with ⟨confirmed, st1, evs1⟩
      rcases hrec : processItems oracle N now rest st1 with e | o
      · rw [processItems] at h
        simp [hexp, hchk, hrec] at h
      · rcases o with ⟨st2x, trx, evsx⟩
        rw [processItems] at h
        simp [hexp, hchk, hrec] at h
        obtain ⟨h1, h2, h3⟩ := h
        subst h2
        rcases List.mem_cons.mp hmem with he | hm
        · rw [Prod.mk.injEq] at he
          obtain ⟨hb, hd⟩ := he
          subst hb
          subst hd
          rcases hcond with hc | hc
          · exact absurd hc hexp
          · have hcf : confirmed = true := by
              have := @check_confirmed_iff oracle N st bill d.md5_hash d.chat_id
                d.message_id
              rw [hchk] at this
              exact this.mpr hc
            subst hcf
            simp
        · have hmemtr := ih st1 hrec hm hcond
          cases confirmed
          · simpa using hmemtr
          · simpa using List.mem_cons_of_mem bill0 hmemtr

theorem removeMarked_lookup_some :
    ∀ (tr : List String) (st : Store) {b : String} {r : TxData},
    lookupTx (removeMarked st tr).1 b = some r → lookupTx st b = some r := by
  intro tr
  induction tr with
  | nil => exact fun st _ _ h => h
  | cons k rest ih =>
    intro st b r h
    by_cases hm : memTx st k
    · rw [removeMarked] at h
      simp only [hm, if_pos] at h
      rcases hrm : removeMarked (eraseTx st k) rest with ⟨st2, evs⟩
      rw [hrm] at h
      have := ih (eraseTx st k) (b := b) (r := r)
      rw [hrm] at this
      exact lookupTx_eraseTx_some (this h)
    · rw [removeMarked] at h
      simp only [hm] at h
      exact ih st h

theorem removeMarked_absent :
    ∀ (tr : List String) (st : Store) {b : String},
    lookupTx st b = none →
    lookupTx (removeMarked st tr).1 b = none ∧
      (removeMarked st tr).2.countP (isRemovedLogFor b) = 0 := by
  intro tr
  induction tr with
  | nil => exact fun st _ hb => ⟨hb, rfl⟩
  | cons k rest ih =>
    intro st b hb
    by_cases hm : memTx st k
    · have hkb : k ≠ b := by
        intro hk
        simp [memTx, hk, hb] at hm
      rw [removeMarked]
      simp only [hm, if_pos]
      rcases hrm : removeMarked (eraseTx st k) rest with ⟨st2, evs⟩
      have := ih (eraseTx st k) (b := b) (lookupTx_eraseTx_none k hb)
      rw [hrm] at this
      refine ⟨this.1, ?_⟩
      rw [List.countP_cons, this.2]
      simp [isRemovedLogFor, hkb]
    · rw [removeMarked]
      simp only [hm]
      exact ih st hb

theorem removeMarked_removes :
    ∀ (tr : List String) (st : Store) {b : String},
    b ∈ tr → lookupTx (removeMarked st tr).1 b = none := by
  intro tr
  induction tr with
  | nil =>
    intro st b hb
    simp at hb
  | cons k rest ih =>
    intro st b hb
    by_cases hkb : k = b
    · subst hkb
      by_cases hm : memTx st k
      · rw [removeMarked]
        simp only [hm, if_pos]
        rcases hrm : removeMarked (eraseTx st k) rest with ⟨st2, evs⟩
        have := removeMarked_absent rest (eraseTx st k) (b := k)
          (lookupTx_eraseTx_self st k)
        rw [hrm] at this
        exact this.1
      · rw [removeMarked]
        simp only [hm]
        have hb0 : lookupTx st k = none := by
          rw [memTx] at hm
          exact Option.not_isSome_iff_eq_none.mp (fun hx => hm hx)
        exact (removeMarked_absent rest st hb0).1
    · have hbr : b ∈ rest := by
        rcases List.mem_cons.mp hb with he | hm
        · exact absurd he.symm hkb
        · exact hm
      by_cases hm : memTx st k
      · rw [removeMarked]
        simp only [hm, if_pos]
        rcases hrm : removeMarked (eraseTx st k) rest with ⟨st2, evs⟩
        have := ih (eraseTx st k) hbr
        rw [hrm] at this
        exact this
      · rw [removeMarked]
        simp only [hm]
        exact ih st hbr

theorem removeMarked_countP_zero (p : Event → Bool)
    (hp : ∀ k, p (Event.removedLog k) = false) :
    ∀ (tr : List String) (st : Store), (removeMarked st tr).2.countP p = 0 := by
  intro tr
  induction tr with
  | nil => exact fun st => rfl
  | cons k rest ih =>
    intro st
    by_cases hm : memTx st k
    · rw [removeMarked]
      simp only [hm, if_pos]
      rcases hrm : removeMarked (eraseTx st k) rest with ⟨st2, evs⟩
      have := ih (eraseTx st k)
      rw [hrm] at this
      rw [List.countP_cons, this, hp]
      rfl
    · rw [removeMarked]
      simp only [hm]
      exact ih st

end PassLemmas

section HandlerLemmas

variable {oracle : Oracle} {N : Notifier} {st : Store} {data : String} {callChat : Nat}

theorem handle_confirm_not_tracked
    (h1 : lookupTx st (extract_bill data) = none)
    (h2 : N.answerOk = true) (h3 : N.sendOk callChat = true) :
    handle_confirm_payment oracle N st data callChat
      = .ok (.notTracked, st,
          [Event.answerCallback, Event.editCaption callChat (N.editOk callChat),
            Event.sendNotTracked callChat (extract_bill data)]) := by
  simp [handle_confirm_payment, h1, h2, h3]

theorem handle_confirm_paid {d : TxData}
    (hd : lookupTx st (extract_bill data) = some d)
    (hp : oracle d.md5_hash = .ok "PAID")
    (hsend : N.sendOk d.chat_id = true) (ha : N.answerOk = true) :
    handle_confirm_payment oracle N st data callChat
      = .ok (.confirmed, eraseTx st (extract_bill data),
          Event.answerCallback :: Event.oracleCheck d.md5_hash ::
            qrDeleteEvents N d.chat_id d.message_id ++
            [Event.sendSuccess d.chat_id (extract_bill data),
              Event.removedLog (extract_bill data)]) := by
  have hmem : memTx st (extract_bill data) = true := by
    rw [memTx, hd]
    rfl
  have hchk := @check_eq_paid_present oracle N st (extract_bill data) d.md5_hash
    d.chat_id d.message_id hp hsend hmem
  simp [handle_confirm_payment, ha, hd, hchk]

theorem handle_confirm_lookup_some {b : String} {r : TxData}
    (h : lookupTx (pressStore (handle_confirm_payment oracle N st data callChat)) b
      = some r) :
    lookupTx st b = some r := by
  by_cases ha : N.answerOk
  · rcases hd : lookupTx st (extract_bill data) with _ | d
    · by_cases hsend : N.sendOk callChat
      · rw [handle_confirm_payment] at h
        simp only [ha, if_pos, hd, hsend] at h
        simpa [pressStore] using h
      · rw [handle_confirm_payment] at h
        simp only [ha, if_pos, hd] at h
        simp only [hsend] at h
        simpa [pressStore] using h
    · rcases hchk : check_payment_status oracle N st (extract_bill data) d.md5_hash
          d.chat_id d.message_id with ⟨confirmed, st1, evs1⟩
      have hshrink := @check_lookup_some oracle N st (extract_bill data) d.md5_hash
        d.chat_id d.message_id b r
      rw [hchk] at hshrink
      rw [handle_confirm_payment] at h
      simp only [ha, if_pos, hd, hchk] at h
      cases confirmed
      · by_cases hsend : N.sendOk d.chat_id
        · simp only [hsend] at h
          simp [pressStore] at h
          exact hshrink h
        · simp only [hsend] at h
          simp [pressStore] at h
          exact hshrink h
      · simp [pressStore] at h
        exact hshrink h
  · rw [handle_confirm_payment] at h
    simp only [ha] at h
    simpa [pressStore] using h

theorem handle_confirm_no_expiredNotif :
    (pressEvents (handle_confirm_payment oracle N st data callChat)).countP
      isExpiredNotif = 0 := by
  by_cases ha : N.answerOk
  · rcases hd : lookupTx st (extract_bill data) with _ | d
    · by_cases hsend : N.sendOk callChat
      · rw [handle_confirm_payment]
        simp only [ha, if_pos, hd, hsend]
        simp [pressEvents, List.countP_cons, isExpiredNotif]
      · rw [handle_confirm_payment]
        simp only [ha, if_pos, hd]
        simp only [hsend]
        simp [pressEvents, List.countP_cons, isExpiredNotif]
    · rcases hchk : check_payment_status oracle N st (extract_bill data) d.md5_hash
          d.chat_id d.message_id with ⟨confirmed, st1, evs1⟩
      have hc : evs1.countP isExpiredNotif = 0 := by
        have := @check_count_expiredNotif oracle N st (extract_bill data) d.md5_hash
          d.chat_id d.message_id
        rwa [hchk] at this
      rw [handle_confirm_payment]
      simp only [ha, if_pos, hd, hchk]
      cases confirmed
      · by_cases hsend : N.sendOk d.chat_id
        · simp only [hsend]
          simp [pressEvents, List.countP_cons, List.countP_append, isExpiredNotif, hc]
        · simp only [hsend]
          simp [pressEvents, List.countP_cons, List.countP_append, isExpiredNotif, hc]
      · simp [pressEvents, List.countP_cons, isExpiredNotif, hc]
  · rw [handle_confirm_payment]
    simp only [ha]
    simp [pressEvents]

end HandlerLemmas

section SchedulerLemmas

variable {oracle : Oracle} {N : Notifier} {now : Nat}

theorem scheduler_pass_lookup_some {st : Store} {b : String} {r : TxData}
    (h : lookupTx (passStore (scheduler_pass oracle N now st)) b = some r) :
    lookupTx st b = some r := by
  rcases hpi : processItems oracle N now st st with e | o
  · rcases e with ⟨st2, evs⟩
    rw [scheduler_pass] at h
    simp only [hpi] at h
    have := @processItems_lookup_some oracle N now st st b r
    rw [hpi] at this
    exact this (by simpa [passStore, itemsOutStore] using h)
  · rcases o with ⟨st2, tr, evs⟩
    rcases hrm : removeMarked st2 tr with ⟨st3, evs2⟩
    rw [scheduler_pass] at h
    simp only [hpi, hrm] at h
    simp only [passStore] at h
    have h2 : lookupTx st2 b = some r := by
      have := removeMarked_lookup_some tr st2 (b := b) (r := r)
      rw [hrm] at this
      exact this h
    have := @processItems_lookup_some oracle N now st st b r
    rw [hpi] at this
    exact this (by simpa [itemsOutStore] using h2)

theorem scheduler_pass_expired_spec (oracle : Oracle) (N : Notifier) (now : Nat)
    (st : Store) (bill : String) (rec : TxData)
    (hN : ∀ c, N.sendOk c = true)
    (hnd : (st.map Prod.fst).Nodup)
    (hlk : lookupTx st bill = some rec)
    (hexp : rec.expiry_time < now)
    (hmd5 : ∀ it ∈ st, it.2.md5_hash = rec.md5_hash → it.1 = bill) :
    ∃ st2 evs, scheduler_pass oracle N now st = .ok (st2, evs) ∧
      evs.countP (isExpiredNotifFor bill) = 1 ∧
      lookupTx st2 bill = none ∧
      evs.countP (isOracleCheckOf rec.md5_hash) = 0 := by
  obtain ⟨st1, tr, evs1, hok⟩ := @processItems_isOk oracle N now hN st st
  have hq1 : ∀ it : String × TxData,
      (it.1 == bill && decide (it.2.expiry_time < now)) = true → it.1 = bill := by
    intro it hit
    rw [Bool.and_eq_true] at hit
    simpa using hit.1
  have hcount1 : evs1.countP (isExpiredNotifFor bill) = 1 := by
    rw [processItems_count_expiredFor bill st st hok,
      countP_keyed _ hnd hlk hq1]
    simp [hexp]
  have hcount2 : evs1.countP (isOracleCheckOf rec.md5_hash) = 0 := by
    rw [processItems_count_oracle rec.md5_hash st st hok, List.countP_eq_zero]
    intro it hit hq
    rw [Bool.and_eq_true] at hq
    have hm : it.2.md5_hash = rec.md5_hash := by simpa using hq.1
    have hb : it.1 = bill := hmd5 it hit hm
    have hlk2 : lookupTx st it.1 = some it.2 :=
      mem_lookupTx_nodup hnd (by rw [Prod.mk.eta]; exact hit)
    rw [hb, hlk] at hlk2
    have hrec : it.2 = rec := by
      injection hlk2.symm
    rw [hrec] at hq
    simp [hexp] at hq
  have hmem_tr : bill ∈ tr :=
    processItems_mem_toRemove st st hok (lookupTx_some_mem hlk) (Or.inl hexp)
  rcases hrm : removeMarked st1 tr with ⟨st3, evs3⟩
  have h3exp : evs3.countP (isExpiredNotifFor bill) = 0 := by
    have := removeMarked_countP_zero (isExpiredNotifFor bill) (fun k => rfl) tr st1
    rw [hrm] at this
    exact this
  have h3ora : evs3.countP (isOracleCheckOf rec.md5_hash) = 0 := by
    have := removeMarked_countP_zero (isOracleCheckOf rec.md5_hash) (fun k => rfl) tr st1
    rw [hrm] at this
    exact this
  have h3rm : lookupTx st3 bill = none := by
    have := removeMarked_removes tr st1 hmem_tr
    rw [hrm] at this
    exact this
  refine ⟨st3, evs1 ++ evs3, ?_, ?_, h3rm, ?_⟩
  · simp [scheduler_pass, hok, hrm]
  · rw [List.countP_append, hcount1, h3exp]
  · rw [List.countP_append, hcount2, h3ora]

theorem applyEvent_tick (st : Store) (now : Nat) (oracle : Oracle) (N : Notifier) :
    applyEvent st (.schedulerTick now oracle N)
      = passStore (scheduler_pass oracle N now st) := by
  cases hsp : scheduler_pass oracle N now st with
  | error e =>
    rcases e with ⟨s, evs⟩
    rw [applyEvent, hsp]
    rfl
  | ok o =>
    rcases o with ⟨s, evs⟩
    rw [applyEvent, hsp]
    rfl

theorem applyEvent_press (st : Store) (oracle : Oracle) (N : Notifier)
    (data : String) (callChat : Nat) :
    applyEvent st (.buttonPress oracle N data callChat)
      = pressStore (handle_confirm_payment oracle N st data callChat) := by
  cases hsp : handle_confirm_payment oracle N st data callChat with
  | error e =>
    rcases e with ⟨s, evs⟩
    rw [applyEvent, hsp]
    rfl
  | ok o =>
    rcases o with ⟨res, s, evs⟩
    rw [applyEvent, hsp]
    rfl

theorem runTrace_lookup :
    ∀ (evs : List SysEvent) (st : Store) (b : String) (r : TxData),
    lookupTx (runTrace st evs) b = some r →
    lookupTx st b = some r ∨
      ∃ t md5 chat msgId,
        SysEvent.payRequest t b md5 chat msgId ∈ evs ∧
        r = ⟨md5, t + EXPIRATION_SECONDS, chat, some msgId⟩ := by
  intro evs
  induction evs with
  | nil => exact fun st b r h => Or.inl h
  | cons e rest ih =>
    intro st b r h
    rw [runTrace] at h
    rcases ih (applyEvent st e) b r h with h1 | h2
    · cases e with
      | payRequest now bill0 md5 chat msgId =>
        rw [applyEvent, generate_khqr_payment] at h1
        rcases lookupTx_setItem h1 with ⟨hb, hr⟩ | hst
        · refine Or.inr ⟨now, md5, chat, msgId, ?_, hr⟩
          rw [hb]
          exact List.mem_cons_self ..
        · exact Or.inl hst
      | schedulerTick now oracle N =>
        rw [applyEvent_tick] at h1
        exact Or.inl (scheduler_pass_lookup_some h1)
      | buttonPress oracle N data cc =>
        rw [applyEvent_press] at h1
        exact Or.inl (handle_confirm_lookup_some h1)
    · obtain ⟨t, md5, chat, msgId, hmem, hr⟩ := h2
      exact Or.inr ⟨t, md5, chat, msgId, List.mem_cons_of_mem _ hmem, hr⟩

end SchedulerLemmas

section Claims

/-- Claim C1 counterexample: with the background tick's snapshot taken
before a button press completes, both the press and the tick observe PAID
for the same transaction and BOTH deliver the success notification — the
success message is sent at src 78 before the guarded removal at src 87-90,
so the loser of the removal race still notifies.  The record itself is
removed only once and no residue remains, but the notification count is 2,
not 1 as the claim requires. -/
theorem c1_counterexample :
    pressResult c1race = some .confirmed ∧
    (pressEvents c1race).countP (isSuccessNotifFor "TRX1") = 2 ∧
    ¬ (pressEvents c1race).countP (isSuccessNotifFor "TRX1") = 1 ∧
    (pressEvents c1race).countP (isRemovedLogFor "TRX1") = 1 ∧
    lookupTx (pressStore c1race) "TRX1" = none := by decide

/-- Claim C1 amended: when a button press and a background tick race on
the same live transaction with the Oracle answering PAID (the tick's
snapshot taken before the press runs), the record is removed from the
store exactly once and does not survive the race, but EACH racing
invocation that observes PAID sends its own success notification: two
notifications are delivered, one per invocation. -/
theorem c1_amended_race (oracle : Oracle) (N : Notifier) (now : Nat)
    (st : Store) (data : String) (callChat : Nat) (rec : TxData)
    (hnd : (st.map Prod.fst).Nodup)
    (hlk : lookupTx st (extract_bill data) = some rec)
    (hexp : ¬ rec.expiry_time < now)
    (hp : oracle rec.md5_hash = .ok "PAID")
    (hN : ∀ c, N.sendOk c = true)
    (ha : N.answerOk = true) :
    ∃ st3 evs,
      raced_pass_after_manual oracle N now st data callChat
        = .ok (.confirmed, st3, evs) ∧
      evs.countP (isSuccessNotifFor (extract_bill data)) = 2 ∧
      evs.countP (isRemovedLogFor (extract_bill data)) = 1 ∧
      lookupTx st3 (extract_bill data) = none := by
  have h1 := @handle_confirm_paid oracle N st data callChat rec hlk hp
    (hN rec.chat_id) ha
  obtain ⟨st2, tr, evs2, hok⟩ := @processItems_isOk oracle N now hN st
    (eraseTx st (extract_bill data))
  obtain ⟨habs2, hrem2⟩ :=
    processItems_absent st (eraseTx st (extract_bill data))
      (lookupTx_eraseTx_self ..) hok
  have hpaid : oracleSaysPaid oracle rec.md5_hash = true := by
    simp [oracleSaysPaid, hp]
  have hq1 : ∀ it : String × TxData,
      (it.1 == extract_bill data && !decide (it.2.expiry_time < now)
        && oracleSaysPaid oracle it.2.md5_hash && N.sendOk it.2.chat_id) = true →
      it.1 = extract_bill data := by
    intro it hit
    simp only [Bool.and_eq_true] at hit
    simpa using hit.1.1.1
  have hcnt2 : evs2.countP (isSuccessNotifFor (extract_bill data)) = 1 := by
    rw [processItems_count_success (extract_bill data) st
        (eraseTx st (extract_bill data)) hok,
      countP_keyed _ hnd hlk hq1]
    simp [hexp, hpaid, hN]
  rcases hrm : removeMarked st2 tr with ⟨st3, evs3⟩
  have h3succ : evs3.countP (isSuccessNotifFor (extract_bill data)) = 0 := by
    have := removeMarked_countP_zero (isSuccessNotifFor (extract_bill data))
      (fun k => rfl) tr st2
    rw [hrm] at this
    exact this
  have h3abs : lookupTx st3 (extract_bill data) = none := by
    have := removeMarked_absent tr st2 habs2
    rw [hrm] at this
    exact this.1
  have h3rem : evs3.countP (isRemovedLogFor (extract_bill data)) = 0 := by
    have := removeMarked_absent tr st2 habs2
    rw [hrm] at this
    exact this.2
  refine ⟨st3,
    (Event.answerCallback :: Event.oracleCheck rec.md5_hash ::
        qrDeleteEvents N rec.chat_id rec.message_id ++
        [Event.sendSuccess rec.chat_id (extract_bill data),
          Event.removedLog (extract_bill data)]) ++ evs2 ++ evs3,
    ?_, ?_, ?_, h3abs⟩
  · simp [raced_pass_after_manual, h1, hok, hrm]
  · have hqrs : (qrDeleteEvents N rec.chat_id rec.message_id).countP
        (isSuccessNotifFor (extract_bill data)) = 0 :=
      qrDelete_countP_zero _ (fun _ _ => rfl) N rec.chat_id rec.message_id
    rw [List.countP_append, List.countP_append, hcnt2, h3succ,
      List.countP_append, List.countP_cons, List.countP_cons, hqrs]
    simp [isSuccessNotifFor]
  · have hqrr : (qrDeleteEvents N rec.chat_id rec.message_id).countP
        (isRemovedLogFor (extract_bill data)) = 0 :=
      qrDelete_countP_zero _ (fun _ _ => rfl) N rec.chat_id rec.message_id
    rw [List.countP_append, List.countP_append, hrem2, h3rem,
      List.countP_append, List.countP_cons, List.countP_cons, hqrr]
    simp [isRemovedLogFor]

/-- Claim C1 amended, witness: the amended statement evaluated on the
concrete one-transaction race. -/
theorem c1_amended_race_witness :
    ∃ st3 evs,
      raced_pass_after_manual oraclePaidMd5x notifierAllOk 10 c1store
          (make_callback_data "TRX1") 7
        = .ok (.confirmed, st3, evs) ∧
      evs.countP (isSuccessNotifFor (extract_bill (make_callback_data "TRX1"))) = 2 ∧
      evs.countP (isRemovedLogFor (extract_bill (make_callback_data "TRX1"))) = 1 ∧
      lookupTx st3 (extract_bill (make_callback_data "TRX1")) = none :=
  c1_amended_race oraclePaidMd5x notifierAllOk 10 c1store
    (make_callback_data "TRX1") 7 ⟨"md5x", 1000, 7, some 42⟩
    (by decide) (by decide) (by decide) rfl (fun c => rfl) rfl

/-- Claim C2 counterexample: a record whose deadline (10) has long passed
(wall time 1000) is reconciled by the manual confirm-button path, which
performs no expiry check at all (src 280-339): the Oracle is consulted,
the outcome is the still-unpaid feedback, the record stays in the store,
and no EXPIRED outcome is produced. -/
theorem c2_counterexample :
    (10 : Nat) < 1000 ∧
    pressResult c2press = some .unpaidFeedback ∧
    pressStore c2press = c2store ∧
    (pressEvents c2press).countP isExpiredNotif = 0 ∧
    (pressEvents c2press).countP (isOracleCheckOf "m5") = 1 := by decide

/-- Claim C2 amended: only the background scheduler checks expiry.  A
record whose deadline has passed yields the EXPIRED outcome on its next
background pass regardless of what the Oracle would have answered (the
Oracle is not even consulted for it), while the manual confirm-button
path never produces an expiry outcome: it always defers to the Oracle. -/
theorem c2_amended_expiry_scheduler_only :
    (∀ (oracle : Oracle) (N : Notifier) (now : Nat) (st : Store)
        (bill : String) (rec : TxData),
      (∀ c, N.sendOk c = true) →
      (st.map Prod.fst).Nodup →
      lookupTx st bill = some rec →
      rec.expiry_time < now →
      (∀ it ∈ st, it.2.md5_hash = rec.md5_hash → it.1 = bill) →
      ∃ st2 evs, scheduler_pass oracle N now st = .ok (st2, evs) ∧
        evs.countP (isExpiredNotifFor bill) = 1 ∧
        evs.countP (isOracleCheckOf rec.md5_hash) = 0) ∧
    (∀ (oracle : Oracle) (N : Notifier) (st : Store) (data : String)
        (callChat : Nat),
      (pressEvents (handle_confirm_payment oracle N st data callChat)).countP
        isExpiredNotif = 0) := by
  constructor
  · intro oracle N now st bill rec hN hnd hlk hexp hmd5
    obtain ⟨st2, evs, h1, h2, h3, h4⟩ :=
      scheduler_pass_expired_spec oracle N now st bill rec hN hnd hlk hexp hmd5
    exact ⟨st2, evs, h1, h2, h4⟩
  · intro oracle N st data callChat
    exact handle_confirm_no_expiredNotif

/-- Claim C2 amended, witness: both halves evaluated on concrete inputs. -/
theorem c2_amended_expiry_scheduler_only_witness :
    (∃ st2 evs,
      scheduler_pass oracleUnpaid notifierAllOk 20 [("T2", ⟨"m9", 6, 3, some 4⟩)]
        = .ok (st2, evs) ∧
      evs.countP (isExpiredNotifFor "T2") = 1 ∧
      evs.countP (isOracleCheckOf "m9") = 0) ∧
    (pressEvents (handle_confirm_payment oracleUnpaid notifierAllOk c2store
        (make_callback_data "TRX1") 9)).countP isExpiredNotif = 0 :=
  ⟨c2_amended_expiry_scheduler_only.1 oracleUnpaid notifierAllOk 20
      [("T2", ⟨"m9", 6, 3, some 4⟩)] "T2" ⟨"m9", 6, 3, some 4⟩
      (fun c => rfl) (by decide) (by decide) (by decide) (by decide),
    c2_amended_expiry_scheduler_only.2 oracleUnpaid notifierAllOk c2store
      (make_callback_data "TRX1") 9⟩

/-- Claim C3 (code bug), evaluated at the failing input: during a
scheduled background pass over one pending, unexpired record, an Oracle
failure is NOT silent to the user — the shared `check_payment_status`
routine sends its check-error message (src 99-103) from the polling path
too (called at src 147).  The record does stay pending and the pass
completes. -/
theorem c3_background_failure_notifies_user :
    passOk c3pass = true ∧
    (passEvents c3pass).countP isCheckErrorSend = 1 ∧
    passStore c3pass = c3store := by decide

/-- Claim C4 (code bug), evaluated at the failing input: the expiry-branch
`bot.send_message` (src 138) has no surrounding try, so when the expiry
notification for the first record raises, the pass aborts: the second
record is never checked against the Oracle, no removal happens, and the
recurring loop terminates — the second tick never runs. -/
theorem c4_expiry_send_failure_aborts_pass :
    passOk (scheduler_pass oracleUnpaid notifierChat7Down 10 c4store) = false ∧
    passStore (scheduler_pass oracleUnpaid notifierChat7Down 10 c4store) = c4store ∧
    (passEvents (scheduler_pass oracleUnpaid notifierChat7Down 10 c4store)).countP
      (isOracleCheckOf "m2") = 0 ∧
    passOk (run_ticks oracleUnpaid notifierChat7Down [10, 40] c4store) = false ∧
    (passEvents (run_ticks oracleUnpaid notifierChat7Down [10, 40] c4store)).countP
      (isOracleCheckOf "m2") = 0 := by decide

/-- Claim C5 counterexample: the not-tracked branch of the confirm-button
handler performs the caption edit and the not-tracked send while holding
`transaction_lock` (src 290-309: both calls sit inside the
`with transaction_lock` block), so the lock IS held across external
calls on that path. -/
theorem c5_counterexample :
    confirm_not_tracked_lock_trace ∈ all_lock_traces ∧
    lockClean confirm_not_tracked_lock_trace = false := by decide

/-- Claim C5 amended: on every lock/call path of the program EXCEPT the
confirm-button handler's not-tracked branch, `transaction_lock` is held
only for in-memory dict operations and never across an external call; the
not-tracked branch alone edits and sends under the lock. -/
theorem c5_amended_lock_discipline :
    ∀ t ∈ all_lock_traces, t ≠ confirm_not_tracked_lock_trace →
      lockClean t = true := by decide

/-- Claim C5 amended, witness: the scheduler snapshot path is lock clean. -/
theorem c5_amended_lock_discipline_witness :
    scheduler_snapshot_lock_trace ∈ all_lock_traces ∧
    scheduler_snapshot_lock_trace ≠ confirm_not_tracked_lock_trace ∧
    lockClean scheduler_snapshot_lock_trace = true :=
  ⟨by decide, by decide,
    c5_amended_lock_discipline scheduler_snapshot_lock_trace (by decide) (by decide)⟩

/-- Claim C6 counterexample: a button press on a bill number that is not
in the store returns the not-tracked outcome and mutates nothing, but it
does NOT stay silent: it performs two messaging-transport calls (the
caption edit at src 294 and the not-tracked message at src 305), so "no
notification call" fails. -/
theorem c6_counterexample :
    pressResult c6press = some .notTracked ∧
    pressStore c6press = [] ∧
    (pressEvents c6press).countP isNotifierCall = 2 ∧
    ¬ (pressEvents c6press).countP isNotifierCall = 0 := by decide

/-- Claim C6 amended: a button press on an untracked bill number yields
the not-tracked outcome, leaves the store untouched and never consults
the Oracle, but it does send the not-tracked feedback: exactly two
messaging-transport calls, the caption edit and the feedback message. -/
theorem c6_amended_not_tracked (oracle : Oracle) (N : Notifier) (st : Store)
    (data : String) (callChat : Nat)
    (h1 : lookupTx st (extract_bill data) = none)
    (h2 : N.answerOk = true) (h3 : N.sendOk callChat = true) :
    handle_confirm_payment oracle N st data callChat
      = .ok (.notTracked, st,
          [Event.answerCallback, Event.editCaption callChat (N.editOk callChat),
            Event.sendNotTracked callChat (extract_bill data)]) ∧
    ([Event.answerCallback, Event.editCaption callChat (N.editOk callChat),
        Event.sendNotTracked callChat (extract_bill data)]).countP
      isNotifierCall = 2 := by
  refine ⟨handle_confirm_not_tracked h1 h2 h3, ?_⟩
  simp [List.countP_cons, isNotifierCall]

/-- Claim C6 amended, witness: the amended statement at the concrete
unknown-id press. -/
theorem c6_amended_not_tracked_witness :
    handle_confirm_payment oracleUnpaid notifierAllOk []
        (make_callback_data "TRX9") 9
      = .ok (.notTracked, [],
          [Event.answerCallback, Event.editCaption 9 (notifierAllOk.editOk 9),
            Event.sendNotTracked 9 (extract_bill (make_callback_data "TRX9"))]) ∧
    ([Event.answerCallback, Event.editCaption 9 (notifierAllOk.editOk 9),
        Event.sendNotTracked 9 (extract_bill (make_callback_data "TRX9"))]).countP
      isNotifierCall = 2 :=
  c6_amended_not_tracked oracleUnpaid notifierAllOk []
    (make_callback_data "TRX9") 9 rfl rfl rfl

/-- Claim C7 counterexample: inserting a record under a bill number that
is already present does not fail — the intake's dict assignment
(src 263-269) silently replaces the prior record; there is no duplicate-id
check and no DuplicateIdError anywhere in the source. -/
theorem c7_counterexample :
    lookupTx (generate_khqr_payment [("B", ⟨"a", 100, 1, some 1⟩)] 50 "B" "b" 2 2) "B"
      = some ⟨"b", 50 + EXPIRATION_SECONDS, 2, some 2⟩ ∧
    ¬ lookupTx (generate_khqr_payment [("B", ⟨"a", 100, 1, some 1⟩)] 50 "B" "b" 2 2) "B"
      = some ⟨"a", 100, 1, some 1⟩ := by decide

/-- Claim C7 amended: the intake insert is an unconditional overwrite —
after inserting a record for a bill number, the store maps that bill
number to the new record, whether or not a record was already present;
no error is ever signalled. -/
theorem c7_amended_insert_overwrites (st : Store) (now : Nat)
    (bill md5 : String) (chat msgId : Nat) :
    lookupTx (generate_khqr_payment st now bill md5 chat msgId) bill
      = some ⟨md5, now + EXPIRATION_SECONDS, chat, some msgId⟩ :=
  lookupTx_setItem_self ..

/-- Claim C8: in a background pass, a record whose deadline has passed is
handled by the expiry branch — exactly one expiry notification is sent
for it, it is removed from the store, and the Oracle is never called for
its fingerprint in that pass (expiry is checked before the Oracle,
src 127-143). -/
theorem c8_scheduler_expiry (oracle : Oracle) (N : Notifier) (now : Nat)
    (st : Store) (bill : String) (rec : TxData)
    (hN : ∀ c, N.sendOk c = true)
    (hnd : (st.map Prod.fst).Nodup)
    (hlk : lookupTx st bill = some rec)
    (hexp : rec.expiry_time < now)
    (hmd5 : ∀ it ∈ st, it.2.md5_hash = rec.md5_hash → it.1 = bill) :
    ∃ st2 evs, scheduler_pass oracle N now st = .ok (st2, evs) ∧
      evs.countP (isExpiredNotifFor bill) = 1 ∧
      lookupTx st2 bill = none ∧
      evs.countP (isOracleCheckOf rec.md5_hash) = 0 :=
  scheduler_pass_expired_spec oracle N now st bill rec hN hnd hlk hexp hmd5

/-- Claim C8, witness: the statement at a concrete expired record. -/
theorem c8_scheduler_expiry_witness :
    ∃ st2 evs,
      scheduler_pass oracleUnpaid notifierAllOk 10 [("T1", ⟨"m1", 5, 7, some 1⟩)]
        = .ok (st2, evs) ∧
      evs.countP (isExpiredNotifFor "T1") = 1 ∧
      lookupTx st2 "T1" = none ∧
      evs.countP (isOracleCheckOf "m1") = 0 :=
  c8_scheduler_expiry oracleUnpaid notifierAllOk 10
    [("T1", ⟨"m1", 5, 7, some 1⟩)] "T1" ⟨"m1", 5, 7, some 1⟩
    (fun c => rfl) (by decide) (by decide) (by decide) (by decide)

/-- Claim C9: every record reachable in the store over any sequence of
intakes, background ticks and button presses was put there verbatim by a
`/pay` intake, with its deadline equal to that intake's timestamp plus
the fixed `EXPIRATION_SECONDS` = 300 seconds; no operation ever modifies
a stored record's deadline (ticks and presses only remove records). -/
theorem c9_expiry_deadline (evs : List SysEvent) (bill : String) (rec : TxData)
    (h : lookupTx (runTrace [] evs) bill = some rec) :
    ∃ t md5 chat msgId,
      SysEvent.payRequest t bill md5 chat msgId ∈ evs ∧
      rec = ⟨md5, t + EXPIRATION_SECONDS, chat, some msgId⟩ ∧
      rec.expiry_time = t + 300 := by
  rcases runTrace_lookup evs [] bill rec h with h1 | h2
  · simp [lookupTx] at h1
  · obtain ⟨t, md5, chat, msgId, hmem, hr⟩ := h2
    refine ⟨t, md5, chat, msgId, hmem, hr, ?_⟩
    rw [hr]
    rfl

/-- Claim C9, witness: the statement on a one-intake trace. -/
theorem c9_expiry_deadline_witness :
    ∃ t md5 chat msgId,
      SysEvent.payRequest t "TRX1" md5 chat msgId ∈
        [SysEvent.payRequest 100 "TRX1" "m" 7 5] ∧
      (⟨"m", 100 + EXPIRATION_SECONDS, 7, some 5⟩ : TxData)
        = ⟨md5, t + EXPIRATION_SECONDS, chat, some msgId⟩ ∧
      TxData.expiry_time ⟨"m", 100 + EXPIRATION_SECONDS, 7, some 5⟩ = t + 300 :=
  c9_expiry_deadline [SysEvent.payRequest 100 "TRX1" "m" 7 5] "TRX1"
    ⟨"m", 100 + EXPIRATION_SECONDS, 7, some 5⟩ (by decide)

/-- Claim C10: encoding a bill number into callback data as the confirm
prefix followed by the bill number (src 240), then decoding by dropping
the first `len(prefix)` characters (src 287), returns exactly the
original bill number. -/
theorem c10_callback_roundtrip (bill : String) :
    extract_bill (make_callback_data bill) = bill := by
  apply String.ext
  rw [extract_bill, make_callback_data, String.data_drop, String.data_append]
  exact List.drop_left ..

end Claims

end BakongWing
